import Mathlib

/-!
Verification of the Dytallix SPHINCS+ binding layer
(`src/dytallix-lean-launch/vendor/pqclean/wrappers/sphincs_wrapper.c`).

The visible source is a thin wrapper: six C functions, each a single
forwarding call to the vendored PQClean SPHINCS+-SHA2-128s-simple
implementation (declared in `api.h`, not present under `src/`).

Shallow-embedding conventions:
- a byte buffer `unsigned char *` together with its length becomes `List Nat`;
- the C `int` status return plus output parameters become `Except Status`
  carrying the outputs (or, for verify, a bare `Status`);
- the `size_t *siglen` output parameter of `pqc_sign` becomes the `Nat`
  component of the returned pair;
- the entropy consumed internally by key generation becomes an explicit
  entropy-bytes input to `crypto_sign_keypair`.
-/

/-- Status codes of the engine contract, taken from the specification
(section 6): OK, ENTROPY_FAILURE, INVALID_KEY_SIZE, INVALID_SIGNATURE_SIZE,
VERIFY_FAILED. -/
inductive Status where
  | OK : Status
  | ENTROPY_FAILURE : Status
  | INVALID_KEY_SIZE : Status
  | INVALID_SIGNATURE_SIZE : Status
  | VERIFY_FAILED : Status
deriving DecidableEq

/-- The interface of the vendored PQClean implementation exactly as the
wrapper consumes it: three functions and three size constants, with the
names used in `sphincs_wrapper.c`. The implementation behind these names is
not part of the visible source, so it is kept abstract here; the wrapper is
embedded parametrically over it. -/
structure PQCleanAPI where
  PQCLEAN_SPHINCSSHA2128SSIMPLE_CLEAN_crypto_sign_keypair :
    List Nat → Except Status (List Nat × List Nat)
  PQCLEAN_SPHINCSSHA2128SSIMPLE_CLEAN_crypto_sign_signature :
    List Nat → List Nat → Except Status (List Nat × Nat)
  PQCLEAN_SPHINCSSHA2128SSIMPLE_CLEAN_crypto_sign_verify :
    List Nat → List Nat → List Nat → Status
  PQCLEAN_SPHINCSSHA2128SSIMPLE_CLEAN_CRYPTO_PUBLICKEYBYTES : Nat
  PQCLEAN_SPHINCSSHA2128SSIMPLE_CLEAN_CRYPTO_SECRETKEYBYTES : Nat
  PQCLEAN_SPHINCSSHA2128SSIMPLE_CLEAN_CRYPTO_BYTES : Nat

/-- Embedding of `pqc_keypair`: a single forwarding call to
`PQCLEAN_SPHINCSSHA2128SSIMPLE_CLEAN_crypto_sign_keypair`. The two output
buffers `pk`, `sk` become the returned pair. -/
def pqc_keypair (A : PQCleanAPI) (entropy : List Nat) :
    Except Status (List Nat × List Nat) :=
  A.PQCLEAN_SPHINCSSHA2128SSIMPLE_CLEAN_crypto_sign_keypair entropy

/-- Embedding of `pqc_sign`: a single forwarding call to
`PQCLEAN_SPHINCSSHA2128SSIMPLE_CLEAN_crypto_sign_signature`. The output
buffer `sig` and the out-parameter `siglen` become the returned pair. -/
def pqc_sign (A : PQCleanAPI) (m : List Nat) (sk : List Nat) :
    Except Status (List Nat × Nat) :=
  A.PQCLEAN_SPHINCSSHA2128SSIMPLE_CLEAN_crypto_sign_signature m sk

/-- Embedding of `pqc_verify`: a single forwarding call to
`PQCLEAN_SPHINCSSHA2128SSIMPLE_CLEAN_crypto_sign_verify`. -/
def pqc_verify (A : PQCleanAPI) (sig : List Nat) (m : List Nat)
    (pk : List Nat) : Status :=
  A.PQCLEAN_SPHINCSSHA2128SSIMPLE_CLEAN_crypto_sign_verify sig m pk

/-- Embedding of `pqc_pk_bytes`: returns the compile-time constant
`PQCLEAN_SPHINCSSHA2128SSIMPLE_CLEAN_CRYPTO_PUBLICKEYBYTES`. -/
def pqc_pk_bytes (A : PQCleanAPI) : Nat :=
  A.PQCLEAN_SPHINCSSHA2128SSIMPLE_CLEAN_CRYPTO_PUBLICKEYBYTES

/-- Embedding of `pqc_sk_bytes`: returns the compile-time constant
`PQCLEAN_SPHINCSSHA2128SSIMPLE_CLEAN_CRYPTO_SECRETKEYBYTES`. -/
def pqc_sk_bytes (A : PQCleanAPI) : Nat :=
  A.PQCLEAN_SPHINCSSHA2128SSIMPLE_CLEAN_CRYPTO_SECRETKEYBYTES

/-- Embedding of `pqc_sig_bytes`: returns the compile-time constant
`PQCLEAN_SPHINCSSHA2128SSIMPLE_CLEAN_CRYPTO_BYTES`. -/
def pqc_sig_bytes (A : PQCleanAPI) : Nat :=
  A.PQCLEAN_SPHINCSSHA2128SSIMPLE_CLEAN_CRYPTO_BYTES

/-- Modelled from the spec: the vendored PQClean
SPHINCS+-SHA2-128s-simple implementation behind the six
`PQCLEAN_SPHINCSSHA2128SSIMPLE_CLEAN_*` names is not present under `src/`
(only the wrapper that calls it is), so its contract is modelled from the
specification. A `Scheme` packages the raw cryptographic core - key
derivation from entropy, raw signing, raw validity checking - together with
the properties the spec states for it: fixed key lengths matching the size
constants (section 3), signature length bounded by the maximum (section 4.1),
matching-key signatures verify (section 4.1 and section 8), and signatures
do not verify under a different public key (section 8). -/
structure Scheme where
  PKBYTES : Nat
  SKBYTES : Nat
  SIGBYTES : Nat
  keyDerive : List Nat → Option (List Nat × List Nat)
  rawSign : List Nat → List Nat → List Nat
  rawValid : List Nat → List Nat → List Nat → Bool
  keyDerive_pk_len : ∀ e pk sk, keyDerive e = some (pk, sk) →
    pk.length = PKBYTES
  keyDerive_sk_len : ∀ e pk sk, keyDerive e = some (pk, sk) →
    sk.length = SKBYTES
  rawSign_len : ∀ m sk, (rawSign m sk).length ≤ SIGBYTES
  rawSign_valid : ∀ e pk sk m, keyDerive e = some (pk, sk) →
    rawValid (rawSign m sk) m pk = true
  rawSign_cross : ∀ e e' pk sk pk' sk' m, keyDerive e = some (pk, sk) →
    keyDerive e' = some (pk', sk') → pk ≠ pk' →
    rawValid (rawSign m sk) m pk' = false

/-- Modelled from the spec: key generation of the missing PQClean
implementation. It derives a key pair from the supplied entropy and fails
with ENTROPY_FAILURE when the randomness source cannot supply sufficient
secure bytes (spec section 4.1). -/
def Scheme.crypto_sign_keypair (S : Scheme) (entropy : List Nat) :
    Except Status (List Nat × List Nat) :=
  match S.keyDerive entropy with
  | some kp => Except.ok kp
  | none => Except.error Status.ENTROPY_FAILURE

/-- Modelled from the spec: signing in the missing PQClean implementation.
Size-mismatch conditions are detected before any cryptographic computation
begins (spec section 7): a secret key whose length differs from SKBYTES is
rejected with INVALID_KEY_SIZE and no output is produced; otherwise the raw
signature is produced together with its out-of-band length. -/
def Scheme.crypto_sign_signature (S : Scheme) (m sk : List Nat) :
    Except Status (List Nat × Nat) :=
  if sk.length = S.SKBYTES then
    Except.ok (S.rawSign m sk, (S.rawSign m sk).length)
  else
    Except.error Status.INVALID_KEY_SIZE

/-- Modelled from the spec: verification in the missing PQClean
implementation. A structurally malformed signature (longer than the SIGBYTES
maximum) is rejected with INVALID_SIGNATURE_SIZE before any cryptographic
computation (spec sections 6 and 7); otherwise the raw validity check decides
between OK and VERIFY_FAILED. The function is total: it never raises. -/
def Scheme.crypto_sign_verify (S : Scheme) (sig m pk : List Nat) : Status :=
  if S.SIGBYTES < sig.length then Status.INVALID_SIGNATURE_SIZE
  else if S.rawValid sig m pk then Status.OK
  else Status.VERIFY_FAILED

/-- Packaging of a spec-modelled scheme as the PQClean interface the
wrapper consumes. -/
def Scheme.api (S : Scheme) : PQCleanAPI where
  PQCLEAN_SPHINCSSHA2128SSIMPLE_CLEAN_crypto_sign_keypair :=
    S.crypto_sign_keypair
  PQCLEAN_SPHINCSSHA2128SSIMPLE_CLEAN_crypto_sign_signature :=
    S.crypto_sign_signature
  PQCLEAN_SPHINCSSHA2128SSIMPLE_CLEAN_crypto_sign_verify :=
    S.crypto_sign_verify
  PQCLEAN_SPHINCSSHA2128SSIMPLE_CLEAN_CRYPTO_PUBLICKEYBYTES := S.PKBYTES
  PQCLEAN_SPHINCSSHA2128SSIMPLE_CLEAN_CRYPTO_SECRETKEYBYTES := S.SKBYTES
  PQCLEAN_SPHINCSSHA2128SSIMPLE_CLEAN_CRYPTO_BYTES := S.SIGBYTES

/-- A process-level operation on the engine, for stating that the size
queries are unaffected by interleaved keypair, sign and verify calls. -/
inductive EngineOp where
  | keypairOp : EngineOp
  | signOp : List Nat → List Nat → EngineOp
  | verifyOp : List Nat → List Nat → List Nat → EngineOp

/-- Process state visible to the binding: per the spec (section 5) the
engine is stateless across calls, so the only evolving state is the entropy
pool that key generation draws from. -/
structure ProcState where
  pool : List (List Nat)

/-- One engine call: key generation consumes one entropy draw; sign and
verify are pure and leave the process state unchanged (spec section 5). -/
def stepOp (s : ProcState) : EngineOp → ProcState
  | EngineOp.keypairOp => ProcState.mk s.pool.tail
  | EngineOp.signOp _ _ => s
  | EngineOp.verifyOp _ _ _ => s

/-- Running a sequence of engine calls from a process state. -/
def runEngine (s : ProcState) : List EngineOp → ProcState
  | [] => s
  | op :: ops => runEngine (stepOp s op) ops

/-- The results of the three size queries issued in a given process state.
The C functions take void and return compile-time constants, so the state
argument is not consulted. -/
def sizeTriple (A : PQCleanAPI) (_s : ProcState) : Nat × Nat × Nat :=
  (pqc_pk_bytes A, pqc_sk_bytes A, pqc_sig_bytes A)

/-- A concrete executable instance of the spec-modelled scheme, used to
exhibit witnesses. It uses the SPHINCS+-SHA2-128s parameter sizes; key
derivation takes 64 entropy bytes as the secret key and its 32-byte prefix
as the public key, a raw signature is the 32-byte key prefix, and validity
compares the signature with the public key. -/
def toyDerive (e : List Nat) : Option (List Nat × List Nat) :=
  if 64 ≤ e.length then some ((e.take 64).take 32, e.take 64) else none

/-- The toy scheme satisfies every contract property of `Scheme`. -/
def toyScheme : Scheme where
  PKBYTES := 32
  SKBYTES := 64
  SIGBYTES := 7856
  keyDerive := toyDerive
  rawSign := fun _ sk => sk.take 32
  rawValid := fun sig _ pk => decide (sig = pk)
  keyDerive_pk_len := by
    intro e pk sk h
    unfold toyDerive at h
    split at h
    · rename_i hle
      simp only [Option.some.injEq, Prod.mk.injEq] at h
      obtain ⟨hpk, _⟩ := h
      subst hpk
      simp [List.length_take]
      omega
    · exact absurd h (by simp)
  keyDerive_sk_len := by
    intro e pk sk h
    unfold toyDerive at h
    split at h
    · rename_i hle
      simp only [Option.some.injEq, Prod.mk.injEq] at h
      obtain ⟨_, hsk⟩ := h
      subst hsk
      simp [List.length_take]
      omega
    · exact absurd h (by simp)
  rawSign_len := by
    intro m sk
    simp only [List.length_take]
    omega
  rawSign_valid := by
    intro e pk sk m h
    unfold toyDerive at h
    split at h
    · simp only [Option.some.injEq, Prod.mk.injEq] at h
      obtain ⟨hpk, hsk⟩ := h
      subst hsk
      simp [hpk]
    · exact absurd h (by simp)
  rawSign_cross := by
    intro e e' pk sk pk' sk' m h h' hne
    unfold toyDerive at h
    split at h
    · simp only [Option.some.injEq, Prod.mk.injEq] at h
      obtain ⟨hpk, hsk⟩ := h
      subst hsk
      simp only [decide_eq_false_iff_not]
      rw [hpk]
      exact hne
    · exact absurd h (by simp)

theorem keypair_ok_elim (S : Scheme) (e pk sk : List Nat)
    (h : S.crypto_sign_keypair e = Except.ok (pk, sk)) :
    S.keyDerive e = some (pk, sk) := by
  cases hke : S.keyDerive e with
  | none =>
    exact absurd h (by simp [Scheme.crypto_sign_keypair, hke])
  | some kp =>
    have h' : kp = (pk, sk) := by
      simpa [Scheme.crypto_sign_keypair, hke] using h
    rw [h']

theorem sign_ok_elim (S : Scheme) (m sk sig : List Nat) (n : Nat)
    (h : S.crypto_sign_signature m sk = Except.ok (sig, n)) :
    sk.length = S.SKBYTES ∧ sig = S.rawSign m sk ∧ n = sig.length := by
  unfold Scheme.crypto_sign_signature at h
  split at h
  · rename_i hlen
    simp only [Except.ok.injEq, Prod.mk.injEq] at h
    obtain ⟨h1, h2⟩ := h
    subst h1
    exact ⟨hlen, rfl, h2.symm⟩
  · exact absurd h (by simp)

theorem verify_ok_of_valid (S : Scheme) (sig m pk : List Nat)
    (hlen : sig.length ≤ S.SIGBYTES) (hv : S.rawValid sig m pk = true) :
    S.crypto_sign_verify sig m pk = Status.OK := by
  have h1 : ¬ S.SIGBYTES < sig.length := Nat.not_lt.mpr hlen
  simp [Scheme.crypto_sign_verify, h1, hv]

theorem verify_failed_of_invalid (S : Scheme) (sig m pk : List Nat)
    (hlen : sig.length ≤ S.SIGBYTES) (hv : S.rawValid sig m pk = false) :
    S.crypto_sign_verify sig m pk = Status.VERIFY_FAILED := by
  have h1 : ¬ S.SIGBYTES < sig.length := Nat.not_lt.mpr hlen
  simp [Scheme.crypto_sign_verify, h1, hv]

/-- C1: for every key pair produced by a successful `pqc_keypair` call and
every message, signing the message with the secret key via `pqc_sign` and
then verifying the resulting signature against the message and the public
key via `pqc_verify` returns OK. -/
theorem sign_verify_roundtrip (S : Scheme) (e m pk sk sig : List Nat)
    (n : Nat)
    (hk : pqc_keypair S.api e = Except.ok (pk, sk))
    (hs : pqc_sign S.api m sk = Except.ok (sig, n)) :
    pqc_verify S.api sig m pk = Status.OK := by
  have hk' : S.keyDerive e = some (pk, sk) := keypair_ok_elim S e pk sk hk
  obtain ⟨-, hsig, -⟩ := sign_ok_elim S m sk sig n hs
  subst hsig
  exact verify_ok_of_valid S _ m pk (S.rawSign_len m sk)
    (S.rawSign_valid e pk sk m hk')

/-- Witness for C1 at a concrete key pair and message of the toy scheme. -/
theorem sign_verify_roundtrip_witness :
    pqc_verify toyScheme.api (List.replicate 32 0) [1, 2, 3]
      (List.replicate 32 0) = Status.OK :=
  sign_verify_roundtrip toyScheme (List.replicate 64 0) [1, 2, 3]
    (List.replicate 32 0) (List.replicate 64 0) (List.replicate 32 0) 32
    (by rfl) (by rfl)

/-- C2: for two key pairs produced by independent `pqc_keypair` calls whose
public keys differ (the overwhelmingly probable case for independent
generation) and any message, a signature produced with one secret key does
not verify under the other public key: `pqc_verify` returns VERIFY_FAILED
and in particular not OK. -/
theorem cross_key_verify_fails (S : Scheme) (e e' m pk sk pk' sk' sig : List Nat)
    (n : Nat)
    (hk : pqc_keypair S.api e = Except.ok (pk, sk))
    (hk' : pqc_keypair S.api e' = Except.ok (pk', sk'))
    (hne : pk ≠ pk')
    (hs : pqc_sign S.api m sk = Except.ok (sig, n)) :
    pqc_verify S.api sig m pk' = Status.VERIFY_FAILED ∧
    pqc_verify S.api sig m pk' ≠ Status.OK := by
  have hd := keypair_ok_elim S e pk sk hk
  have hd' := keypair_ok_elim S e' pk' sk' hk'
  obtain ⟨-, hsig, -⟩ := sign_ok_elim S m sk sig n hs
  subst hsig
  have hv := S.rawSign_cross e e' pk sk pk' sk' m hd hd' hne
  have h : pqc_verify S.api (S.rawSign m sk) m pk' = Status.VERIFY_FAILED :=
    verify_failed_of_invalid S _ m pk' (S.rawSign_len m sk) hv
  refine ⟨h, ?_⟩
  rw [h]
  decide

/-- Witness for C2 at two concrete toy key pairs with distinct public
keys. -/
theorem cross_key_verify_fails_witness :
    pqc_verify toyScheme.api (List.replicate 32 0) [7]
        (List.replicate 32 1) = Status.VERIFY_FAILED ∧
      pqc_verify toyScheme.api (List.replicate 32 0) [7]
        (List.replicate 32 1) ≠ Status.OK :=
  cross_key_verify_fails toyScheme (List.replicate 64 0) (List.replicate 64 1)
    [7] (List.replicate 32 0) (List.replicate 64 0) (List.replicate 32 1)
    (List.replicate 64 1) (List.replicate 32 0) 32
    (by rfl) (by rfl) (by decide) (by rfl)

/-- C3: for a public key of exactly the advertised public-key size,
`pqc_verify` is total on arbitrary signature bytes and messages: its result
is always one of OK, VERIFY_FAILED or INVALID_SIGNATURE_SIZE (it never
raises); an over-length signature yields the malformed-input code
INVALID_SIGNATURE_SIZE; and OK is returned only when the signature is
cryptographically valid, so a mismatch never yields OK. -/
theorem verify_total_status (S : Scheme) (sig m pk : List Nat)
    (hpk : pk.length = pqc_pk_bytes S.api) :
    (pqc_verify S.api sig m pk = Status.OK ∨
      pqc_verify S.api sig m pk = Status.VERIFY_FAILED ∨
      pqc_verify S.api sig m pk = Status.INVALID_SIGNATURE_SIZE) ∧
    (pqc_sig_bytes S.api < sig.length →
      pqc_verify S.api sig m pk = Status.INVALID_SIGNATURE_SIZE) ∧
    (pqc_verify S.api sig m pk = Status.OK → S.rawValid sig m pk = true) := by
  have e1 : pqc_verify S.api sig m pk = S.crypto_sign_verify sig m pk := rfl
  have e2 : pqc_sig_bytes S.api = S.SIGBYTES := rfl
  rw [e1, e2]
  unfold Scheme.crypto_sign_verify
  by_cases hlen : S.SIGBYTES < sig.length
  · rw [if_pos hlen]
    exact ⟨Or.inr (Or.inr rfl), fun _ => rfl,
      fun hOK => absurd hOK (by decide)⟩
  · rw [if_neg hlen]
    by_cases hv : S.rawValid sig m pk = true
    · rw [if_pos hv]
      exact ⟨Or.inl rfl, fun hlt => absurd hlt hlen, fun _ => hv⟩
    · rw [if_neg hv]
      exact ⟨Or.inr (Or.inl rfl), fun hlt => absurd hlt hlen,
        fun hOK => absurd hOK (by decide)⟩

/-- Witness for C3 at garbage signature bytes and a concrete toy public
key. -/
theorem verify_total_status_witness :
    (pqc_verify toyScheme.api [9, 9, 9] [1] (List.replicate 32 0) = Status.OK ∨
      pqc_verify toyScheme.api [9, 9, 9] [1] (List.replicate 32 0) =
        Status.VERIFY_FAILED ∨
      pqc_verify toyScheme.api [9, 9, 9] [1] (List.replicate 32 0) =
        Status.INVALID_SIGNATURE_SIZE) ∧
    (pqc_sig_bytes toyScheme.api < ([9, 9, 9] : List Nat).length →
      pqc_verify toyScheme.api [9, 9, 9] [1] (List.replicate 32 0) =
        Status.INVALID_SIGNATURE_SIZE) ∧
    (pqc_verify toyScheme.api [9, 9, 9] [1] (List.replicate 32 0) =
        Status.OK →
      toyScheme.rawValid [9, 9, 9] [1] (List.replicate 32 0) = true) :=
  verify_total_status toyScheme [9, 9, 9] [1] (List.replicate 32 0) (by decide)

/-- C4: a `pqc_sign` call whose secret key length differs from the
advertised secret-key size returns the INVALID_KEY_SIZE error with no
signature output, and the result does not depend on the message (the
message is not consumed: the same error is returned for any message). -/
theorem sign_wrong_key_size (S : Scheme) (m m' sk : List Nat)
    (h : sk.length ≠ pqc_sk_bytes S.api) :
    pqc_sign S.api m sk = Except.error Status.INVALID_KEY_SIZE ∧
    pqc_sign S.api m sk = pqc_sign S.api m' sk := by
  have h' : sk.length ≠ S.SKBYTES := h
  refine ⟨?_, ?_⟩ <;>
    simp [pqc_sign, Scheme.api, Scheme.crypto_sign_signature, h']

/-- Witness for C4 at a three-byte secret key, which does not match the
toy secret-key size of 64. -/
theorem sign_wrong_key_size_witness :
    pqc_sign toyScheme.api [1] [5, 5, 5] =
        Except.error Status.INVALID_KEY_SIZE ∧
      pqc_sign toyScheme.api [1] [5, 5, 5] = pqc_sign toyScheme.api [2] [5, 5, 5] :=
  sign_wrong_key_size toyScheme [1] [2] [5, 5, 5] (by decide)

/-- C5: the status returned by `pqc_verify` distinguishes three outcomes.
The codes OK, VERIFY_FAILED and INVALID_SIGNATURE_SIZE are pairwise
distinct, and each characterises exactly one situation: OK exactly when the
signature fits the maximum size and is cryptographically valid,
INVALID_SIGNATURE_SIZE exactly when the input is structurally malformed
(over-length), and VERIFY_FAILED exactly when the signature is well-formed
but cryptographically wrong; the latter two are never collapsed. -/
theorem verify_status_distinguishes (S : Scheme) (sig m pk : List Nat) :
    (Status.OK ≠ Status.VERIFY_FAILED ∧
      Status.OK ≠ Status.INVALID_SIGNATURE_SIZE ∧
      Status.VERIFY_FAILED ≠ Status.INVALID_SIGNATURE_SIZE) ∧
    (pqc_verify S.api sig m pk = Status.OK ↔
      sig.length ≤ pqc_sig_bytes S.api ∧ S.rawValid sig m pk = true) ∧
    (pqc_verify S.api sig m pk = Status.INVALID_SIGNATURE_SIZE ↔
      pqc_sig_bytes S.api < sig.length) ∧
    (pqc_verify S.api sig m pk = Status.VERIFY_FAILED ↔
      sig.length ≤ pqc_sig_bytes S.api ∧ S.rawValid sig m pk = false) := by
  have e1 : pqc_verify S.api sig m pk = S.crypto_sign_verify sig m pk := rfl
  have e2 : pqc_sig_bytes S.api = S.SIGBYTES := rfl
  rw [e1, e2]
  unfold Scheme.crypto_sign_verify
  refine ⟨⟨by decide, by decide, by decide⟩, ?_⟩
  by_cases hlen : S.SIGBYTES < sig.length
  · rw [if_pos hlen]
    refine ⟨⟨fun h => absurd h (by decide), fun ⟨h1, _⟩ => ?_⟩,
      ⟨fun _ => hlen, fun _ => rfl⟩,
      ⟨fun h => absurd h (by decide), fun ⟨h1, _⟩ => ?_⟩⟩
    · exfalso; omega
    · exfalso; omega
  · rw [if_neg hlen]
    have hle : sig.length ≤ S.SIGBYTES := Nat.not_lt.mp hlen
    by_cases hv : S.rawValid sig m pk = true
    · rw [if_pos hv]
      refine ⟨⟨fun _ => ⟨hle, hv⟩, fun _ => rfl⟩,
        ⟨fun h => absurd h (by decide), fun h => absurd h hlen⟩,
        ⟨fun h => absurd h (by decide), fun ⟨_, h2⟩ => ?_⟩⟩
      rw [hv] at h2
      exact absurd h2 (by decide)
    · have hv' : S.rawValid sig m pk = false := by simpa using hv
      rw [if_neg hv]
      refine ⟨⟨fun h => absurd h (by decide), fun ⟨_, h2⟩ => ?_⟩,
        ⟨fun h => absurd h (by decide), fun h => absurd h hlen⟩,
        ⟨fun _ => ⟨hle, hv'⟩, fun _ => rfl⟩⟩
      rw [h2] at hv
      exact absurd rfl hv

/-- C6: the three size queries are pure and constant within a process.
Their results do not depend on the process state, are unchanged by any
interleaved sequence of keypair, sign and verify calls, and always equal
the underlying compile-time constants; they take no input and have no
failure mode (they return plain numbers, not statuses). -/
theorem size_queries_constant (A : PQCleanAPI) (s : ProcState)
    (ops1 ops2 : List EngineOp) :
    sizeTriple A (runEngine s ops1) = sizeTriple A (runEngine s ops2) ∧
    sizeTriple A s =
      (A.PQCLEAN_SPHINCSSHA2128SSIMPLE_CLEAN_CRYPTO_PUBLICKEYBYTES,
        A.PQCLEAN_SPHINCSSHA2128SSIMPLE_CLEAN_CRYPTO_SECRETKEYBYTES,
        A.PQCLEAN_SPHINCSSHA2128SSIMPLE_CLEAN_CRYPTO_BYTES) ∧
    sizeTriple A s = (pqc_pk_bytes A, pqc_sk_bytes A, pqc_sig_bytes A) :=
  ⟨rfl, rfl, rfl⟩

/-- C7: a successful `pqc_sign` call reports an out-of-band signature
length that equals the number of signature bytes produced and is at most
the advertised maximum signature size `pqc_sig_bytes`. -/
theorem sign_length_bound (S : Scheme) (m sk sig : List Nat) (n : Nat)
    (h : pqc_sign S.api m sk = Except.ok (sig, n)) :
    n = sig.length ∧ n ≤ pqc_sig_bytes S.api := by
  obtain ⟨-, hsig, hn⟩ := sign_ok_elim S m sk sig n h
  subst hsig
  subst hn
  exact ⟨rfl, S.rawSign_len m sk⟩

/-- Witness for C7 at a concrete toy signing call. -/
theorem sign_length_bound_witness :
    (32 : Nat) = (List.replicate 32 0 : List Nat).length ∧
      (32 : Nat) ≤ pqc_sig_bytes toyScheme.api :=
  sign_length_bound toyScheme [1, 2] (List.replicate 64 0)
    (List.replicate 32 0) 32 (by rfl)

/-- C8: for every key pair produced by `pqc_keypair`, signing the empty
message succeeds (an OK outcome carrying a signature and its length, not an
error), and verifying the resulting signature against the empty message and
the matching public key returns OK. -/
theorem empty_message_sign_verify (S : Scheme) (e pk sk : List Nat)
    (hk : pqc_keypair S.api e = Except.ok (pk, sk)) :
    ∃ sig n, pqc_sign S.api [] sk = Except.ok (sig, n) ∧
      pqc_verify S.api sig [] pk = Status.OK := by
  have hd : S.keyDerive e = some (pk, sk) := keypair_ok_elim S e pk sk hk
  have hsk : sk.length = S.SKBYTES := S.keyDerive_sk_len e pk sk hd
  refine ⟨S.rawSign [] sk, (S.rawSign [] sk).length, ?_, ?_⟩
  · have e1 : pqc_sign S.api [] sk = S.crypto_sign_signature [] sk := rfl
    rw [e1]
    unfold Scheme.crypto_sign_signature
    rw [if_pos hsk]
  · exact verify_ok_of_valid S _ [] pk (S.rawSign_len [] sk)
      (S.rawSign_valid e pk sk [] hd)

/-- Witness for C8 at a concrete toy key pair. -/
theorem empty_message_sign_verify_witness :
    ∃ sig n, pqc_sign toyScheme.api [] (List.replicate 64 0) =
        Except.ok (sig, n) ∧
      pqc_verify toyScheme.api sig [] (List.replicate 32 0) = Status.OK :=
  empty_message_sign_verify toyScheme (List.replicate 64 0)
    (List.replicate 32 0) (List.replicate 64 0) (by rfl)

/-- C10: each of the six binding functions is extensionally equal to the
underlying PQClean primitive or constant it wraps, for every implementation
of the PQClean interface and all arguments: the wrapper returns exactly the
wrapped result and adds no validation, transformation or state change. -/
theorem wrapper_forwards_primitives (A : PQCleanAPI)
    (entropy m sk sig pk : List Nat) :
    pqc_keypair A entropy =
      A.PQCLEAN_SPHINCSSHA2128SSIMPLE_CLEAN_crypto_sign_keypair entropy ∧
    pqc_sign A m sk =
      A.PQCLEAN_SPHINCSSHA2128SSIMPLE_CLEAN_crypto_sign_signature m sk ∧
    pqc_verify A sig m pk =
      A.PQCLEAN_SPHINCSSHA2128SSIMPLE_CLEAN_crypto_sign_verify sig m pk ∧
    pqc_pk_bytes A =
      A.PQCLEAN_SPHINCSSHA2128SSIMPLE_CLEAN_CRYPTO_PUBLICKEYBYTES ∧
    pqc_sk_bytes A =
      A.PQCLEAN_SPHINCSSHA2128SSIMPLE_CLEAN_CRYPTO_SECRETKEYBYTES ∧
    pqc_sig_bytes A = A.PQCLEAN_SPHINCSSHA2128SSIMPLE_CLEAN_CRYPTO_BYTES :=
  ⟨rfl, rfl, rfl, rfl, rfl, rfl⟩
